import Mathlib

/-
Verification development for the deep-research recursive research orchestrator
(src/src/deep-research.ts) and its content-trimming utility (trimPrompt in the
ai/providers module).

Modelling conventions:
- External capabilities (the language model behind generateText/generateObject,
  firecrawl.search, and the stand-alone DuckDuckGo search function) are modelled
  as an environment record `Env` of deterministic response functions; `none`
  models the call throwing (including a timeout abort).
- JavaScript strings are Lean `String`s; all string manipulation is re-implemented
  over `List Char` (the `data` field) because the corresponding Lean core String
  functions do not reduce in the kernel.  JS `\s` and `toLowerCase` are modelled
  by `Char.isWhitespace`/`Char.toLower`, which agree on the ASCII inputs relevant
  here.
- The tokenizer (js-tiktoken o200k_base) is an external library; `trimPrompt`
  takes the token-counting function `enc` as an explicit parameter.
-/

namespace DeepResearch

/- ===== character-list string utilities (JS semantics) ===== -/

/-- JS `String.prototype.trim` on a character list: whitespace stripped from
both ends. -/
def trimChars (cs : List Char) : List Char :=
  ((cs.dropWhile Char.isWhitespace).reverse.dropWhile Char.isWhitespace).reverse

/-- JS `text.split('\n')` on a character list. -/
def splitLines : List Char → List (List Char)
  | [] => [[]]
  | c :: rest =>
    if c = '\n' then [] :: splitLines rest
    else
      match splitLines rest with
      | [] => [[c]]
      | l :: ls => (c :: l) :: ls

/-- Index of the first occurrence of `needle` as a contiguous subsequence of the
second argument, if any. -/
def findSeqIdx (needle : List Char) : List Char → Option Nat
  | [] => if needle.isEmpty then some 0 else none
  | c :: t => if needle.isPrefixOf (c :: t) then some 0 else (findSeqIdx needle t).map (· + 1)

/-- The double-quote character, `'\x22'`. -/
def quoteChar : Char := Char.ofNat 34

/- ===== the SERP-query parser of generateSerpQueries =====
   (deep-research.ts lines 119-151) -/

/-- A sub-query produced by the query-generation adapter:
`{query: string, researchGoal: string}`. -/
structure SubQuery where
  query : String
  researchGoal : String
deriving DecidableEq, Repr

/-- One optional character: JS regex `c?` at the current position.  Returns the
possible remainders in backtracking preference order (consumed first). -/
def optConsume (c : Char) (cs : List Char) : List (List Char) :=
  match cs with
  | x :: rest => if x = c then [rest, cs] else [cs]
  | [] => [cs]

/-- One optional character from a class: JS regex `[..]?`.  Remainders in
backtracking preference order. -/
def optConsumeCls (cls : List Char) (cs : List Char) : List (List Char) :=
  match cs with
  | x :: rest => if cls.contains x then [rest, cs] else [cs]
  | [] => [cs]

/-- Greedy `p+`/`p*`: all remainders after consuming a maximal-first number of
characters satisfying `p` (at least one when `withZero = false`), in
backtracking preference order. -/
def greedySplits (p : Char → Bool) (cs : List Char) (withZero : Bool) : List (List Char) :=
  let n := (cs.takeWhile p).length
  if withZero then (List.range (n + 1)).map (fun j => cs.drop (n - j))
  else (List.range n).map (fun j => cs.drop (n - j))

/-- First candidate position whose greedy `[^"]+` capture group is non-empty, in
regex backtracking order; returns the captured characters. -/
def pickGroup : List (List Char) → Option (List Char)
  | [] => none
  | cs :: rest =>
    let g := cs.takeWhile (fun c => c ≠ quoteChar)
    if g.isEmpty then pickGroup rest else some g

/-- The match `line.match(/^\d+[\.\)]?\s*\*?\*?"?([^"]+)"?\*?\*?/)` of
deep-research.ts line 126, with full backtracking semantics; returns capture
group 1 when the line matches. -/
def matchQueryLine (line : List Char) : Option (List Char) :=
  pickGroup
    ((greedySplits Char.isDigit line false).flatMap (fun r1 =>
      (optConsumeCls ['.', ')'] r1).flatMap (fun r2 =>
        (greedySplits Char.isWhitespace r2 true).flatMap (fun r3 =>
          (optConsume '*' r3).flatMap (fun r4 =>
            (optConsume '*' r4).flatMap (fun r5 =>
              optConsume quoteChar r5))))))

/-- The literal `'Focus:'` used case-sensitively by `line.split('Focus:')`. -/
def focusToken : List Char := ['F', 'o', 'c', 'u', 's', ':']

/-- The lowercase `'focus:'` used by `line.toLowerCase().includes('focus:')`. -/
def focusLower : List Char := ['f', 'o', 'c', 'u', 's', ':']

/-- JS `line.toLowerCase().includes('focus:')`. -/
def hasFocusCI (line : List Char) : Bool :=
  (findSeqIdx focusLower (line.map Char.toLower)).isSome

/-- JS `line.split('Focus:')[1]`: the segment between the first occurrence of
`'Focus:'` and the next occurrence (or the end); `none` when `'Focus:'` does not
occur, in which case the original code dereferences `undefined` and throws. -/
def splitFocusSeg (line : List Char) : Option (List Char) :=
  match findSeqIdx focusToken line with
  | none => none
  | some i =>
    let after := line.drop (i + focusToken.length)
    match findSeqIdx focusToken after with
    | none => some after
    | some j => some (after.take j)

/-- JS `.replace(/^\*|\*$/g, '')`: strips one leading and one trailing `*`. -/
def stripStars (cs : List Char) : List Char :=
  let s1 := if cs.head? = some '*' then cs.tail else cs
  if s1.getLast? = some '*' then s1.dropLast else s1

/-- The parsing loop of generateSerpQueries (deep-research.ts lines 122-151):
walks the non-blank lines carrying the pending `currentQuery`; `none` models the
`TypeError` thrown when a line contains `focus:` case-insensitively but not the
case-sensitive `'Focus:'` split token. -/
def parseLoop : Option SubQuery → List (List Char) → Option (List SubQuery)
  | cur, [] =>
    some (match cur with
          | some c => [c]
          | none => [])
  | cur, line :: rest =>
    match matchQueryLine line with
    | some g =>
      (parseLoop (some ⟨String.mk (trimChars g), ""⟩) rest).map
        (fun qs =>
          (match cur with
           | some c => [c]
           | none => []) ++ qs)
    | none =>
      match cur with
      | none => parseLoop none rest
      | some c =>
        if hasFocusCI line then
          match splitFocusSeg line with
          | none => none
          | some seg =>
            (parseLoop none rest).map
              (fun qs => ⟨c.query, String.mk (stripStars (trimChars seg))⟩ :: qs)
        else if line.head? ≠ some '*' ∧ line.head? ≠ some '-' then
          (parseLoop none rest).map
            (fun qs => ⟨c.query, String.mk (stripStars (trimChars line))⟩ :: qs)
        else
          parseLoop (some c) rest

/-- `result.text.split('\n').filter(line => line.trim())` of line 120. -/
def linesOf (text : String) : List (List Char) :=
  (splitLines text.data).filter (fun l => trimChars l ≠ [])

/-- The whole parse of a generateText response into sub-queries; `none` models
an exception escaping the parsing code (caught by the enclosing try). -/
def parseSerpText (text : String) : Option (List SubQuery) :=
  parseLoop none (linesOf text)

/-- generateSerpQueries (deep-research.ts lines 88-163) as a function of the
generateText outcome: on a thrown generation call (`resp = none`) or a parse
exception the catch block returns `[]`; otherwise the parsed queries, cut to
`numQueries` by `queries.slice(0, numQueries)`. -/
def generateSerpQueriesM (resp : Option String) (numQueries : Nat) : List SubQuery :=
  match resp with
  | none => []
  | some text =>
    match parseSerpText text with
    | none => []
    | some qs => qs.take numQueries

/- ===== data model and environment ===== -/

/-- A document returned by a search capability (`FirecrawlDocument`): optional
`url` and `markdown` (absent modelled as `none`; lodash `compact` also drops
empty strings). -/
structure Doc where
  url : Option String
  markdown : Option String
deriving DecidableEq, Repr

/-- The object produced by processSerpResult's generateObject call. -/
structure Extraction where
  learnings : List String
  followUpQuestions : List String
deriving DecidableEq, Repr

/-- `ResearchResult` of deep-research.ts lines 29-32. -/
structure ResearchResult where
  learnings : List String
  visitedUrls : List String
deriving DecidableEq, Repr

/-- Deterministic behaviour of the external capabilities for one run.
`serpText q learnings numQueries`: outcome of the generateText call inside
generateSerpQueries (`none` = the call throws).
`searchRes q`: outcome of `firecrawl.search(q, {timeout: 15000, limit: 5, ...})`
(`none` = throw or timeout).
`extract q docs numFollowUp`: outcome of the generateObject call inside
processSerpResult (`none` = throw, including the 60_000_000 ms abort signal);
the prompt fed to the model is a function of these arguments, so quantifying
over all such functions covers all capability behaviours.
`ddgSearch q timeout limit`: the DuckDuckGo-based `search` function that the
repository defines (src/unnamed/part_000) and exports; it is included here so
that statements about a secondary/fallback search capability can be expressed.
deep-research.ts never imports or calls it. -/
structure Env where
  serpText : String → List String → Nat → Option String
  searchRes : String → Option (List Doc)
  extract : String → List Doc → Nat → Option Extraction
  ddgSearch : String → Nat → Nat → Option (List Doc)

/-- lodash `compact` applied to a list of optional strings: drops `null`,
`undefined` and `''` (all falsy). -/
def compactStr (xs : List (Option String)) : List String :=
  (xs.filterMap id).filter (fun s => s ≠ "")

/-- `Math.ceil(breadth / 2)` of deep-research.ts line 352 on natural numbers. -/
def newBreadthOf (b : Nat) : Nat := (b + 1) / 2

/-- `ConcurrencyLimit` of deep-research.ts line 35. -/
def ConcurrencyLimit : Nat := 2

/-- processSerpResult (deep-research.ts lines 165-230) as a function of the
generateObject outcome: its own try/catch converts a thrown extraction call into
`{learnings: [], followUpQuestions: []}`.  The content trimming and prompt
construction are absorbed into the `extract` capability function. -/
def processSerpResultM (env : Env) (q : String) (docs : List Doc) (numFU : Nat) : Extraction :=
  (env.extract q docs numFU).getD ⟨[], []⟩

/-- The sub-queries a node works on:
`generateSerpQueries({query, learnings, numQueries: breadth, ...})`
(deep-research.ts lines 326-331). -/
def serpQueriesOf (env : Env) (q : String) (L : List String) (b : Nat) : List SubQuery :=
  generateSerpQueriesM (env.serpText q L b) b

/-- The composite `nextQuery` template of deep-research.ts lines 376-379,
including the template literal's indentation, followed by `.trim()`. -/
def nextQueryOf (sq : SubQuery) (fus : List String) : String :=
  String.mk (trimChars
    ("\n              Previous research goal: " ++ sq.researchGoal ++
     "\n              Follow-up research directions: " ++
     String.join (fus.map (fun fq => "\n" ++ fq)) ++
     "\n            ").data)

/-- Set-style deduplication keeping first occurrences:
JS `[...new Set(list)]`.  `seen` accumulates the elements already emitted. -/
def firstDedupAux (seen : List String) : List String → List String
  | [] => []
  | x :: xs =>
    if x ∈ seen then firstDedupAux seen xs
    else x :: firstDedupAux (x :: seen) xs

/-- JS `[...new Set(list)]`. -/
def firstDedup (l : List String) : List String := firstDedupAux [] l

/-- The final aggregation of deep-research.ts lines 416-419:
`{learnings: [...new Set(results.flatMap(r => r.learnings))],
  visitedUrls: [...new Set(results.flatMap(r => r.visitedUrls))]}`. -/
def aggregateResults (rs : List ResearchResult) : ResearchResult :=
  ⟨firstDedup (rs.flatMap (fun r => r.learnings)),
   firstDedup (rs.flatMap (fun r => r.visitedUrls))⟩

/- ===== the orchestrator ===== -/

/-- One branch of deepResearch at exhausted depth (newDepth = depth - 1 ≤ 0):
search, collect URLs, extract learnings, return
`{learnings: allLearnings, visitedUrls: allUrls}`; a thrown search is caught and
the branch returns `{learnings: [], visitedUrls: []}`
(deep-research.ts lines 342-411). -/
def leafBranch (env : Env) (b : Nat) (L U : List String) (sq : SubQuery) : ResearchResult :=
  match env.searchRes sq.query with
  | none => ⟨[], []⟩
  | some docs =>
    let nb := newBreadthOf b
    let ext := processSerpResultM env sq.query docs nb
    ⟨L ++ ext.learnings, U ++ compactStr (docs.map (fun dd => dd.url))⟩

/-- deepResearch (deep-research.ts lines 295-420).  The depth parameter is
matched so that `d' = depth - 1` is the source's `newDepth`; the recursion of
the source is guarded by `newDepth > 0`, mirrored by `0 < d'`.  Branches whose
`firecrawl.search` call throws are caught and contribute
`{learnings: [], visitedUrls: []}`; the results of all branches are aggregated
by set union.  Progress reporting mutates only the observer-visible snapshot and
does not affect the result, so it is not modelled (the observer is assumed not
to throw, as the specification requires). -/
def deepResearch (env : Env) (q : String) (b : Nat) (d : Nat) (L U : List String) :
    ResearchResult :=
  match d with
  | 0 => aggregateResults ((serpQueriesOf env q L b).map (leafBranch env b L U))
  | d' + 1 =>
    aggregateResults ((serpQueriesOf env q L b).map (fun sq =>
      match env.searchRes sq.query with
      | none => (⟨[], []⟩ : ResearchResult)
      | some docs =>
        let nb := newBreadthOf b
        let ext := processSerpResultM env sq.query docs nb
        let allL := L ++ ext.learnings
        let allU := U ++ compactStr (docs.map (fun dd => dd.url))
        if 0 < d' then deepResearch env (nextQueryOf sq ext.followUpQuestions) nb d' allL allU
        else ⟨allL, allU⟩))

/-- One branch of deepResearch as a stand-alone function of the sub-query
(d - 1 plays the role of the source's newDepth). -/
def branchResult (env : Env) (b d : Nat) (L U : List String) (sq : SubQuery) : ResearchResult :=
  match env.searchRes sq.query with
  | none => ⟨[], []⟩
  | some docs =>
    let nb := newBreadthOf b
    let nd := d - 1
    let ext := processSerpResultM env sq.query docs nb
    let allL := L ++ ext.learnings
    let allU := U ++ compactStr (docs.map (fun dd => dd.url))
    if 0 < nd then deepResearch env (nextQueryOf sq ext.followUpQuestions) nb nd allL allU
    else ⟨allL, allU⟩

/-- A `ResearchTask`: the argument record of one deepResearch invocation. -/
structure RTask where
  query : String
  breadth : Nat
  depth : Nat
  learnings : List String
  visitedUrls : List String
deriving DecidableEq, Repr

/-- The argument record of the recursive deepResearch call made for sub-query
`sq` (deep-research.ts lines 381-389), when that call happens: the search must
succeed and `newDepth = depth - 1` must be positive. -/
def childTask? (env : Env) (t : RTask) (sq : SubQuery) : Option RTask :=
  match env.searchRes sq.query with
  | none => none
  | some docs =>
    let nb := newBreadthOf t.breadth
    let nd := t.depth - 1
    if 0 < nd then
      let ext := processSerpResultM env sq.query docs nb
      some ⟨nextQueryOf sq ext.followUpQuestions, nb, nd,
            t.learnings ++ ext.learnings,
            t.visitedUrls ++ compactStr (docs.map (fun dd => dd.url))⟩
    else none

/-- `DirectCall env t t'` holds when evaluating `deepResearch` on task `t` under
environment `env` makes the recursive call with argument record `t'` for one of
its sub-queries. -/
def DirectCall (env : Env) (t t' : RTask) : Prop :=
  ∃ sq ∈ serpQueriesOf env t.query t.learnings t.breadth, childTask? env t sq = some t'

instance (env : Env) (t t' : RTask) : Decidable (DirectCall env t t') :=
  inferInstanceAs (Decidable
    (∃ sq ∈ serpQueriesOf env t.query t.learnings t.breadth, childTask? env t sq = some t'))

/-- `deepGood env q b d L U = true` when some branch of the node survives down
to a depth-exhausted leaf along successful searches: some sub-query's search
succeeds and either the node is at depth ≤ 1 (the branch is a leaf) or the
recursive call below that sub-query is again good. -/
def deepGood (env : Env) (q : String) (b : Nat) (d : Nat) (L U : List String) : Bool :=
  match d with
  | 0 => (serpQueriesOf env q L b).any (fun sq => (env.searchRes sq.query).isSome)
  | d' + 1 =>
    (serpQueriesOf env q L b).any (fun sq =>
      match env.searchRes sq.query with
      | none => false
      | some docs =>
        if 0 < d' then
          let nb := newBreadthOf b
          let ext := processSerpResultM env sq.query docs nb
          deepGood env (nextQueryOf sq ext.followUpQuestions) nb d'
            (L ++ ext.learnings)
            (U ++ compactStr (docs.map (fun dd => dd.url)))
        else true)

/- ===== external-call instrumentation of one branch ===== -/

/-- External calls a branch can make in its own body: the primary
`firecrawl.search` (with its literal options `timeout: 15000, limit: 5`), the
repository's stand-alone DuckDuckGo `search` function as a potential fallback,
and the learning-extraction call (recorded with the number of documents handed
to it). -/
inductive CallEvent where
  | primarySearch (query : String) (timeout lim : Nat)
  | fallbackSearch (query : String) (timeout lim : Nat)
  | extractionCall (query : String) (docCount : Nat)
deriving DecidableEq, Repr

/-- Whether an event is an invocation of the fallback search capability. -/
def isFallbackEvent : CallEvent → Bool
  | .fallbackSearch _ _ _ => true
  | _ => false

/-- Whether an event is an invocation of the primary search capability. -/
def isPrimaryEvent : CallEvent → Bool
  | .primarySearch _ _ _ => true
  | _ => false

/-- The sequence of external calls one branch performs directly (before any
recursion), read off deep-research.ts lines 343-360: exactly one
`firecrawl.search(sq.query, {timeout: 15000, limit: 5, ...})`; if it throws the
branch is caught, otherwise `processSerpResult` runs on whatever document list
came back — including the empty one.  No other search capability appears in the
branch body. -/
def branchEvents (env : Env) (sq : SubQuery) : List CallEvent :=
  match env.searchRes sq.query with
  | none => [.primarySearch sq.query 15000 5]
  | some docs => [.primarySearch sq.query 15000 5, .extractionCall sq.query docs.length]

/- ===== the call tree and the bounded-concurrency scheduler ===== -/

/-- The shape of one deepResearch invocation's subtree: one child slot per
branch task (per sub-query); `some` when the branch makes a recursive call,
carrying the callee's subtree. -/
inductive RTree where
  | node (children : List (Option RTree))

/-- The call tree of `deepResearch env q b d L U`, with the same recursion
structure as `deepResearch`: a branch spawns a child node exactly when its
search succeeds and `newDepth > 0`. -/
def buildTree (env : Env) (q : String) (b : Nat) (d : Nat) (L U : List String) : RTree :=
  match d with
  | 0 => .node ((serpQueriesOf env q L b).map (fun _ => none))
  | d' + 1 =>
    .node ((serpQueriesOf env q L b).map (fun sq =>
      match env.searchRes sq.query with
      | none => none
      | some docs =>
        if 0 < d' then
          let nb := newBreadthOf b
          let ext := processSerpResultM env sq.query docs nb
          some (buildTree env (nextQueryOf sq ext.followUpQuestions) nb d'
            (L ++ ext.learnings)
            (U ++ compactStr (docs.map (fun dd => dd.url))))
        else none))

/-- Navigate to the node spawned by the task at the given index path (`[]` is
the root invocation). -/
def nodeAt : RTree → List Nat → Option RTree
  | t, [] => some t
  | .node cs, i :: rest =>
    match cs[i]? with
    | some (some t') => nodeAt t' rest
    | _ => none

/-- A task identifier is its index path: task `p ++ [i]` is the i-th branch task
of the node spawned by task `p` (of the root invocation when `p = []`). -/
def taskExists (tree : RTree) (p : List Nat) : Bool :=
  match nodeAt tree p.dropLast, p.getLast? with
  | some (.node cs), some i => i < cs.length
  | _, _ => false

/-- Whether the task spawns a recursive invocation (has a child node). -/
def taskSpawns (tree : RTree) (p : List Nat) : Bool :=
  !p.isEmpty && (nodeAt tree p).isSome

/-- Scheduler state: branch tasks currently admitted and running (an admitted
task holds its p-limit slot until its promise settles, i.e. also while awaiting
its recursive children), and tasks already finished. -/
structure SchedState where
  running : List (List Nat)
  done : List (List Nat)
deriving DecidableEq, Repr

/-- Number of running tasks belonging to the node `n` (tasks submitted to the
`pLimit(ConcurrencyLimit)` instance created by invocation `n`). -/
def nodeTasksRunning (s : SchedState) (n : List Nat) : Nat :=
  (s.running.filter (fun p => p.dropLast == n)).length

/-- One scheduler transition.  `start`: a pending task may begin when its
enclosing invocation is active (it is a root task, or the parent task that
spawned its invocation is still running) and its own node's `pLimit`
(deep-research.ts line 338: a fresh `pLimit(ConcurrencyLimit)` per invocation)
has a free slot — the admission count is over the tasks of the *same* node only.
`finish`: a running task may settle once all tasks of the invocation it spawned
(if any) are done.  This over-approximates the real cooperative interleavings
(it does not force a parent to finish its own search before its children start),
which only strengthens any upper-bound invariant proved over all reachable
states; the concrete schedules exhibited below are execution-order feasible. -/
inductive SchedStep (tree : RTree) : SchedState → SchedState → Prop where
  | start (p : List Nat) {s : SchedState} :
      taskExists tree p = true →
      p ∉ s.running → p ∉ s.done →
      (p.dropLast = [] ∨ p.dropLast ∈ s.running) →
      nodeTasksRunning s p.dropLast < ConcurrencyLimit →
      SchedStep tree s ⟨p :: s.running, s.done⟩
  | finish (p : List Nat) {s : SchedState} :
      p ∈ s.running →
      (∀ j, taskExists tree (p ++ [j]) = true → (p ++ [j]) ∈ s.done) →
      SchedStep tree s ⟨s.running.erase p, p :: s.done⟩

/-- Reachability from the initial idle state. -/
def SchedReachable (tree : RTree) (s : SchedState) : Prop :=
  Relation.ReflTransGen (SchedStep tree) ⟨[], []⟩ s

/-- Number of running tasks that spawned no recursive invocation — tasks that
are genuinely executing their own search/extraction work rather than awaiting
children. -/
def runningLeafCount (tree : RTree) (s : SchedState) : Nat :=
  (s.running.filter (fun p => taskExists tree p && !taskSpawns tree p)).length

/- ===== trimPrompt (ai/providers, src/unnamed/part_001 lines 73-110) ===== -/

/-- `MinChunkSize` of the providers module. -/
def MinChunkSize : Nat := 140

/-- Boundary characters at which the text splitter prefers to cut. -/
def isBoundaryChar (c : Char) : Bool := c == '\n' || c == '.'

/-- Modelled from the spec: the providers module imports
`RecursiveCharacterTextSplitter` from `./text-splitter`, a repository file not
present under src/.  Per spec §6 and §4.4 the splitter prefers
sentence/paragraph boundaries and trimming keeps the largest contiguous leading
fragment.  We model the pieces as maximal runs ending at a boundary character
(newline or period, separator kept with its piece); their concatenation is the
original text. -/
def splitPieces : List Char → List (List Char)
  | [] => []
  | c :: rest =>
    if isBoundaryChar c then [c] :: splitPieces rest
    else
      match splitPieces rest with
      | [] => [[c]]
      | p :: ps => (c :: p) :: ps

/-- Length of the further whole pieces greedily added to the first chunk while
the running total stays within `chunkSize`. -/
def greedyLen (chunkSize : Nat) (acc : Nat) : List (List Char) → Nat
  | [] => 0
  | p :: ps =>
    if acc + p.length ≤ chunkSize then p.length + greedyLen chunkSize (acc + p.length) ps
    else 0

/-- Length of the first chunk: the first piece always (a piece that cannot be
split further is emitted whole even when oversized), then whole pieces while the
budget allows. -/
def firstChunkLen (chunkSize : Nat) : List (List Char) → Nat
  | [] => 0
  | p :: ps => p.length + greedyLen chunkSize p.length ps

/-- Modelled from the spec: `splitter.splitText(prompt)[0] ?? ''` — the first
chunk is a leading fragment of the prompt consisting of whole
boundary-delimited pieces (spec §4.4: the largest contiguous leading fragment),
realised as a prefix of the computed length. -/
def splitTextFirst (chunkSize : Nat) (cs : List Char) : List Char :=
  cs.take (firstChunkLen chunkSize (splitPieces cs))

/-- trimPrompt (src/unnamed/part_001 lines 77-110), parameterised by the token
counter `enc` (the o200k_base encoder's `encode(...).length` in the source).
Empty prompt ⇒ `''`; within budget ⇒ unchanged; when the estimated character
budget `prompt.length - 3 * overflowTokens` falls below `MinChunkSize`, a hard
cut to the first `MinChunkSize` characters is returned *without re-checking the
token bound*; when the splitter fails to shrink the text a hard cut to the
character budget recurses; otherwise recurse on the first chunk. -/
def trimPrompt (enc : List Char → Nat) (contextSize : Nat) (prompt : List Char) : List Char :=
  if _h1 : prompt = [] then []
  else if _h2 : enc prompt ≤ contextSize then prompt
  else if _h3 : ((prompt.length : Int) - ((enc prompt - contextSize : Nat) : Int) * 3) <
      (MinChunkSize : Int) then
    prompt.take MinChunkSize
  else if _h4 : (splitTextFirst
        (((prompt.length : Int) - ((enc prompt - contextSize : Nat) : Int) * 3).toNat)
        prompt).length = prompt.length then
    trimPrompt enc contextSize
      (prompt.take (((prompt.length : Int) - ((enc prompt - contextSize : Nat) : Int) * 3).toNat))
  else
    trimPrompt enc contextSize
      (splitTextFirst (((prompt.length : Int) - ((enc prompt - contextSize : Nat) : Int) * 3).toNat)
        prompt)
termination_by prompt.length
decreasing_by
  · simp only [List.length_take]
    have hms : (MinChunkSize : Int) = 140 := rfl
    omega
  · simp only [splitTextFirst, List.length_take] at _h4 ⊢
    omega

/- ===== concrete environments for witnesses and counterexamples ===== -/

/-- A healthy environment: one well-formed sub-query per generation call, a
single document with URL `u1`, one learning and one follow-up per extraction. -/
def envW : Env where
  serpText := fun _ _ _ => some "1. a\nFocus: g"
  searchRes := fun _ => some [⟨some "u1", some "m1"⟩]
  extract := fun _ _ _ => some ⟨["l1"], ["f1"]⟩
  ddgSearch := fun _ _ _ => some []

/-- Four well-formed sub-queries per generation call; used to populate a
breadth-4 call tree. -/
def envFour : Env where
  serpText := fun _ _ _ =>
    some "1. a\nFocus: f1\n2. b\nFocus: f2\n3. c\nFocus: f3\n4. d\nFocus: f4"
  searchRes := fun _ => some [⟨some "u", some "m"⟩]
  extract := fun _ _ _ => some ⟨["l"], ["f"]⟩
  ddgSearch := fun _ _ _ => none

/-- Query generation always throws. -/
def envGenFail : Env where
  serpText := fun _ _ _ => none
  searchRes := fun _ => some [⟨some "u1", some "m1"⟩]
  extract := fun _ _ _ => some ⟨["l1"], ["f1"]⟩
  ddgSearch := fun _ _ _ => some []

/-- Search succeeds with one URL-bearing document but extraction always throws
(e.g. the generateObject abort signal fires). -/
def envExtFail : Env where
  serpText := fun _ _ _ => some "1. q1\nFocus: g1"
  searchRes := fun _ => some [⟨some "u1", some "m1"⟩]
  extract := fun _ _ _ => none
  ddgSearch := fun _ _ _ => some []

/-- The primary search always throws. -/
def envSearchFail : Env where
  serpText := fun _ _ _ => some "1. q1\nFocus: g1"
  searchRes := fun _ => none
  extract := fun _ _ _ => some ⟨["l1"], ["f1"]⟩
  ddgSearch := fun _ _ _ => some []

/-- The primary search succeeds but returns zero documents, while the
repository's DuckDuckGo search would return a document: the configuration in
which the specification claims a fallback invocation. -/
def envZeroDocs : Env where
  serpText := fun _ _ _ => some "1. q1\nFocus: g1"
  searchRes := fun _ => some []
  extract := fun _ _ _ => some ⟨[], []⟩
  ddgSearch := fun _ _ _ => some [⟨some "du", some "dm"⟩]

/-- The call tree of a breadth-4, depth-2 run under `envFour`: four root branch
tasks, each spawning a breadth-2 depth-1 invocation with two leaf tasks. -/
def cTree : RTree := buildTree envFour "q0" 4 2 [] []

/-- The scheduler state reached after admitting two root tasks and all four of
their grandchild leaf tasks. -/
def sBad : SchedState :=
  ⟨[[1, 1], [1, 0], [0, 1], [0, 0], [1], [0]], []⟩

/- ===== helper lemmas ===== -/

lemma mem_firstDedupAux (x : String) :
    ∀ (l seen : List String), x ∈ firstDedupAux seen l ↔ (x ∈ l ∧ x ∉ seen) := by
  intro l
  induction l with
  | nil => intro seen; simp [firstDedupAux]
  | cons y ys ih =>
    intro seen
    rw [firstDedupAux]
    by_cases hy : y ∈ seen
    · rw [if_pos hy, ih]
      simp only [List.mem_cons]
      constructor
      · exact fun h => ⟨Or.inr h.1, h.2⟩
      · rintro ⟨hxy | hm, hns⟩
        · exact absurd (hxy ▸ hy) hns
        · exact ⟨hm, hns⟩
    · rw [if_neg hy]
      by_cases hxy : x = y
      · subst hxy
        simp [hy]
      · simp only [List.mem_cons, ih, List.mem_cons, hxy, false_or]

lemma mem_firstDedup (l : List String) (x : String) : x ∈ firstDedup l ↔ x ∈ l := by
  rw [firstDedup, mem_firstDedupAux]
  simp

lemma nodup_firstDedupAux : ∀ (l seen : List String), (firstDedupAux seen l).Nodup := by
  intro l
  induction l with
  | nil => intro seen; simp [firstDedupAux]
  | cons y ys ih =>
    intro seen
    rw [firstDedupAux]
    by_cases hy : y ∈ seen
    · rw [if_pos hy]; exact ih _
    · rw [if_neg hy]
      refine List.nodup_cons.2 ⟨fun hmem => ?_, ih _⟩
      exact ((mem_firstDedupAux y ys (y :: seen)).1 hmem).2 (List.mem_cons_self y seen)

lemma nodup_firstDedup (l : List String) : (firstDedup l).Nodup := nodup_firstDedupAux l []

lemma mem_aggregate_learnings (rs : List ResearchResult) (x : String) :
    x ∈ (aggregateResults rs).learnings ↔ ∃ r ∈ rs, x ∈ r.learnings := by
  show x ∈ firstDedup (rs.flatMap (fun r => r.learnings)) ↔ _
  rw [mem_firstDedup, List.mem_flatMap]

lemma mem_aggregate_urls (rs : List ResearchResult) (x : String) :
    x ∈ (aggregateResults rs).visitedUrls ↔ ∃ r ∈ rs, x ∈ r.visitedUrls := by
  show x ∈ firstDedup (rs.flatMap (fun r => r.visitedUrls)) ↔ _
  rw [mem_firstDedup, List.mem_flatMap]

/-- The body of `deepResearch` is the aggregation of the independent per-branch
results: this is the unfolding of the orchestrator through `branchResult`. -/
lemma deepResearch_eq_branches (env : Env) (q : String) (b d : Nat) (L U : List String) :
    deepResearch env q b d L U =
      aggregateResults ((serpQueriesOf env q L b).map (branchResult env b d L U)) := by
  cases d with
  | zero =>
    rw [deepResearch]
    congr 1
  | succ d' =>
    rw [deepResearch]
    congr 1

/- ===== C1 ===== -/

/-- C1 (counterexample to the claim as stated): under `envExtFail` the single
branch's extraction call throws (times out), yet the branch does not contribute
`{learnings: ∅, visitedUrls: ∅}` — the URL collected by its successful search
survives into the aggregate.  The extraction failure is caught inside
processSerpResult, not at the branch boundary. -/
theorem c1_counterexample :
    envExtFail.extract "q1" [⟨some "u1", some "m1"⟩] 1 = none
    ∧ deepResearch envExtFail "t" 1 1 [] [] = ⟨[], ["u1"]⟩
    ∧ deepResearch envExtFail "t" 1 1 [] [] ≠ ⟨[], []⟩ := by
  decide

/-- C1 (amended): for every task and every capability behaviour, `deepResearch`
totally evaluates to the aggregation of its branches' results (it never throws,
and no branch aborts a sibling or the enclosing call: each branch's contribution
is an independent element of the aggregated list); a branch whose *search* call
throws contributes exactly `{learnings: [], visitedUrls: []}`.  A branch whose
*extraction* call throws is not emptied: it keeps its prior learnings and its
collected URLs (see the counterexample). -/
theorem c1_branch_failure_semantics (env : Env) (q : String) (b d : Nat) (L U : List String) :
    deepResearch env q b d L U =
      aggregateResults ((serpQueriesOf env q L b).map (branchResult env b d L U))
    ∧ (∀ sq : SubQuery, env.searchRes sq.query = none → branchResult env b d L U sq = ⟨[], []⟩) := by
  refine ⟨deepResearch_eq_branches env q b d L U, fun sq h => ?_⟩
  rw [branchResult, h]

/-- Witness for C1: concrete evaluation of the amended statement on an
environment whose search always throws. -/
theorem c1_witness :
    deepResearch envSearchFail "t" 1 1 [] [] =
      aggregateResults ((serpQueriesOf envSearchFail "t" [] 1).map (branchResult envSearchFail 1 1 [] []))
    ∧ branchResult envSearchFail 1 1 [] [] ⟨"q1", "g1"⟩ = ⟨[], []⟩ :=
  ⟨(c1_branch_failure_semantics envSearchFail "t" 1 1 [] []).1,
   (c1_branch_failure_semantics envSearchFail "t" 1 1 [] []).2 ⟨"q1", "g1"⟩ rfl⟩

/- ===== C2 ===== -/

/-- C2: every recursive call of `deepResearch` is made with depth exactly one
less than its caller's depth and only when that decremented depth is `> 0`;
consequently depth strictly decreases along any chain of recursive calls, so the
recursion nesting is bounded by the initial depth and the recursion terminates
(the Lean embedding is total by this very measure). -/
theorem c2_depth_strictly_decreases (env : Env) (t t' : RTask) :
    (DirectCall env t t' → t'.depth = t.depth - 1 ∧ 0 < t'.depth)
    ∧ (Relation.TransGen (DirectCall env) t t' → t'.depth < t.depth) := by
  have hstep : ∀ a c : RTask, DirectCall env a c → c.depth = a.depth - 1 ∧ 0 < c.depth := by
    rintro a c ⟨sq, _, hchild⟩
    rw [childTask?] at hchild
    cases h : env.searchRes sq.query with
    | none => rw [h] at hchild; simp at hchild
    | some docs =>
      rw [h] at hchild
      simp only at hchild
      split at hchild
      · rename_i hd
        cases hchild
        exact ⟨rfl, hd⟩
      · simp at hchild
  refine ⟨hstep t t', fun htg => ?_⟩
  induction htg with
  | single h =>
    have := hstep _ _ h
    omega
  | tail _ h ih =>
    have := hstep _ _ h
    omega

/-- Witness for C2: a concrete recursive call under `envW` whose depth drops
from 2 to 1. -/
theorem c2_witness :
    DirectCall envW ⟨"root", 2, 2, [], []⟩ ⟨nextQueryOf ⟨"a", "g"⟩ ["f1"], 1, 1, ["l1"], ["u1"]⟩
    ∧ (RTask.depth ⟨nextQueryOf ⟨"a", "g"⟩ ["f1"], 1, 1, ["l1"], ["u1"]⟩ =
        RTask.depth ⟨"root", 2, 2, [], []⟩ - 1
       ∧ 0 < RTask.depth ⟨nextQueryOf ⟨"a", "g"⟩ ["f1"], 1, 1, ["l1"], ["u1"]⟩) :=
  ⟨by decide,
   (c2_depth_strictly_decreases envW ⟨"root", 2, 2, [], []⟩
     ⟨nextQueryOf ⟨"a", "g"⟩ ["f1"], 1, 1, ["l1"], ["u1"]⟩).1 (by decide)⟩

/- ===== C3 ===== -/

/-- C3: the breadth of every recursive call equals
`max(1, ceil(breadth / 2))` (on naturals, `ceil(b / 2) = b / 2 + b % 2`)
whenever the caller's breadth is ≥ 1; the child breadth stays ≥ 1 and never
exceeds the parent's, so along any root-to-leaf path breadths are non-increasing
and never reach 0 (e.g. 4 → 2 → 1 → 1, evaluated in the witness). -/
theorem c3_child_breadth (env : Env) (t t' : RTask) (hcall : DirectCall env t t')
    (hb : 1 ≤ t.breadth) :
    t'.breadth = max 1 (t.breadth / 2 + t.breadth % 2)
    ∧ 1 ≤ t'.breadth ∧ t'.breadth ≤ t.breadth := by
  obtain ⟨sq, _, hchild⟩ := hcall
  have hbr : t'.breadth = newBreadthOf t.breadth := by
    rw [childTask?] at hchild
    cases h : env.searchRes sq.query with
    | none => rw [h] at hchild; simp at hchild
    | some docs =>
      rw [h] at hchild
      simp only at hchild
      split at hchild
      · cases hchild; rfl
      · simp at hchild
  rw [hbr, newBreadthOf]
  omega

/-- Witness for C3: a concrete breadth-4 recursive call under `envFour`, plus
the evaluated chain 4 → 2 → 1 → 1 of `Math.ceil(breadth / 2)`. -/
theorem c3_witness :
    DirectCall envFour ⟨"q0", 4, 2, [], []⟩ ⟨nextQueryOf ⟨"a", "f1"⟩ ["f"], 2, 1, ["l"], ["u"]⟩
    ∧ 1 ≤ RTask.breadth ⟨"q0", 4, 2, [], []⟩
    ∧ RTask.breadth ⟨nextQueryOf ⟨"a", "f1"⟩ ["f"], 2, 1, ["l"], ["u"]⟩ = max 1 (4 / 2 + 4 % 2)
    ∧ newBreadthOf 4 = 2 ∧ newBreadthOf 2 = 1 ∧ newBreadthOf 1 = 1 :=
  ⟨by decide, by decide,
   (c3_child_breadth envFour ⟨"q0", 4, 2, [], []⟩
     ⟨nextQueryOf ⟨"a", "f1"⟩ ["f"], 2, 1, ["l"], ["u"]⟩ (by decide) (by decide)).1,
   by decide, by decide, by decide⟩

/- ===== C5 ===== -/

/-- C5: the final aggregation of `deepResearch` (its last step is exactly
`aggregateResults`) is a set union over branch results: any learning occurring
in the branch results appears exactly once in the aggregate (likewise for
visited URLs), and permuting the list of sibling branch results leaves the
aggregated learning set and URL set identical. -/
theorem c5_aggregate_set_semantics (rs rs' : List ResearchResult) (hperm : rs.Perm rs') :
    ((aggregateResults rs).learnings.toFinset = (aggregateResults rs').learnings.toFinset
     ∧ (aggregateResults rs).visitedUrls.toFinset = (aggregateResults rs').visitedUrls.toFinset)
    ∧ (∀ x ∈ rs.flatMap (fun r => r.learnings), (aggregateResults rs).learnings.count x = 1)
    ∧ (∀ x ∈ rs.flatMap (fun r => r.visitedUrls), (aggregateResults rs).visitedUrls.count x = 1) := by
  refine ⟨⟨?_, ?_⟩, fun x hx => ?_, fun x hx => ?_⟩
  · ext x
    simp only [List.mem_toFinset, mem_aggregate_learnings]
    exact ⟨fun ⟨r, hr, hxr⟩ => ⟨r, hperm.mem_iff.1 hr, hxr⟩,
           fun ⟨r, hr, hxr⟩ => ⟨r, hperm.mem_iff.2 hr, hxr⟩⟩
  · ext x
    simp only [List.mem_toFinset, mem_aggregate_urls]
    exact ⟨fun ⟨r, hr, hxr⟩ => ⟨r, hperm.mem_iff.1 hr, hxr⟩,
           fun ⟨r, hr, hxr⟩ => ⟨r, hperm.mem_iff.2 hr, hxr⟩⟩
  · exact List.count_eq_one_of_mem (nodup_firstDedup _) ((mem_firstDedup _ _).2 hx)
  · exact List.count_eq_one_of_mem (nodup_firstDedup _) ((mem_firstDedup _ _).2 hx)

/-- Witness for C5: two branch results both containing the learning `X`,
aggregated once in either order. -/
theorem c5_witness :
    List.Perm [(⟨["X"], ["u"]⟩ : ResearchResult), ⟨["X", "Y"], ["v"]⟩]
      [(⟨["X", "Y"], ["v"]⟩ : ResearchResult), ⟨["X"], ["u"]⟩]
    ∧ (aggregateResults [(⟨["X"], ["u"]⟩ : ResearchResult), ⟨["X", "Y"], ["v"]⟩]).learnings.toFinset =
        (aggregateResults [(⟨["X", "Y"], ["v"]⟩ : ResearchResult), ⟨["X"], ["u"]⟩]).learnings.toFinset
    ∧ (aggregateResults [(⟨["X"], ["u"]⟩ : ResearchResult), ⟨["X", "Y"], ["v"]⟩]).learnings.count "X" = 1 :=
  ⟨by decide,
   (c5_aggregate_set_semantics [(⟨["X"], ["u"]⟩ : ResearchResult), ⟨["X", "Y"], ["v"]⟩]
     [(⟨["X", "Y"], ["v"]⟩ : ResearchResult), ⟨["X"], ["u"]⟩] (by decide)).1.1,
   (c5_aggregate_set_semantics [(⟨["X"], ["u"]⟩ : ResearchResult), ⟨["X", "Y"], ["v"]⟩]
     [(⟨["X", "Y"], ["v"]⟩ : ResearchResult), ⟨["X"], ["u"]⟩] (by decide)).2.1 "X" (by decide)⟩

/- ===== C4 ===== -/

/-- C4 (counterexample to the claim as stated): when query generation throws,
the node returns `{learnings: [], visitedUrls: []}` — the prior learnings and
prior URLs passed down by the ancestor are dropped, so the result is a strict
subset of the ancestor-supplied values. -/
theorem c4_counterexample :
    (deepResearch envGenFail "t" 3 2 ["L0"] ["u0"]).learnings = []
    ∧ (deepResearch envGenFail "t" 3 2 ["L0"] ["u0"]).visitedUrls = []
    ∧ "L0" ∉ (deepResearch envGenFail "t" 3 2 ["L0"] ["u0"]).learnings
    ∧ "u0" ∉ (deepResearch envGenFail "t" 3 2 ["L0"] ["u0"]).visitedUrls := by
  decide

/-- A node whose `deepGood` flag is set returns a superset of its prior
learnings and prior URLs: the surviving branch carries the priors through the
concatenations at every level down to its depth-exhausted leaf. -/
lemma deepGood_superset :
    ∀ (d : Nat) (env : Env) (q : String) (b : Nat) (L U : List String),
      deepGood env q b d L U = true →
      (∀ x ∈ L, x ∈ (deepResearch env q b d L U).learnings)
      ∧ (∀ x ∈ U, x ∈ (deepResearch env q b d L U).visitedUrls) := by
  intro d
  induction d using Nat.strong_induction_on with
  | _ d ih =>
    intro env q b L U hgood
    match d with
    | 0 =>
      rw [deepGood, List.any_eq_true] at hgood
      obtain ⟨sq, hsq, hsome⟩ := hgood
      cases h : env.searchRes sq.query with
      | none => rw [h] at hsome; simp at hsome
      | some docs =>
        constructor
        · intro x hx
          rw [deepResearch, mem_aggregate_learnings]
          refine ⟨leafBranch env b L U sq, List.mem_map_of_mem _ hsq, ?_⟩
          rw [leafBranch, h]
          exact List.mem_append_left _ hx
        · intro x hx
          rw [deepResearch, mem_aggregate_urls]
          refine ⟨leafBranch env b L U sq, List.mem_map_of_mem _ hsq, ?_⟩
          rw [leafBranch, h]
          exact List.mem_append_left _ hx
    | d' + 1 =>
      rw [deepGood, List.any_eq_true] at hgood
      obtain ⟨sq, hsq, hbranch⟩ := hgood
      cases h : env.searchRes sq.query with
      | none => rw [h] at hbranch; simp at hbranch
      | some docs =>
        rw [h] at hbranch
        simp only at hbranch
        by_cases hd : 0 < d'
        · rw [if_pos hd] at hbranch
          have hih := ih d' (by omega) env (nextQueryOf sq (processSerpResultM env sq.query docs (newBreadthOf b)).followUpQuestions)
            (newBreadthOf b)
            (L ++ (processSerpResultM env sq.query docs (newBreadthOf b)).learnings)
            (U ++ compactStr (docs.map (fun dd => dd.url))) hbranch
          constructor
          · intro x hx
            rw [deepResearch, mem_aggregate_learnings]
            refine ⟨_, List.mem_map_of_mem
              (fun sq => match env.searchRes sq.query with
                | none => (⟨[], []⟩ : ResearchResult)
                | some docs =>
                  if 0 < d' then
                    deepResearch env
                      (nextQueryOf sq (processSerpResultM env sq.query docs (newBreadthOf b)).followUpQuestions)
                      (newBreadthOf b) d'
                      (L ++ (processSerpResultM env sq.query docs (newBreadthOf b)).learnings)
                      (U ++ compactStr (docs.map (fun (dd : Doc) => dd.url)))
                  else ⟨L ++ (processSerpResultM env sq.query docs (newBreadthOf b)).learnings,
                        U ++ compactStr (docs.map (fun (dd : Doc) => dd.url))⟩) hsq, ?_⟩
            simp only [h, if_pos hd]
            exact hih.1 x (List.mem_append_left _ hx)
          · intro x hx
            rw [deepResearch, mem_aggregate_urls]
            refine ⟨_, List.mem_map_of_mem
              (fun sq => match env.searchRes sq.query with
                | none => (⟨[], []⟩ : ResearchResult)
                | some docs =>
                  if 0 < d' then
                    deepResearch env
                      (nextQueryOf sq (processSerpResultM env sq.query docs (newBreadthOf b)).followUpQuestions)
                      (newBreadthOf b) d'
                      (L ++ (processSerpResultM env sq.query docs (newBreadthOf b)).learnings)
                      (U ++ compactStr (docs.map (fun (dd : Doc) => dd.url)))
                  else ⟨L ++ (processSerpResultM env sq.query docs (newBreadthOf b)).learnings,
                        U ++ compactStr (docs.map (fun (dd : Doc) => dd.url))⟩) hsq, ?_⟩
            simp only [h, if_pos hd]
            exact hih.2 x (List.mem_append_left _ hx)
        · constructor
          · intro x hx
            rw [deepResearch, mem_aggregate_learnings]
            refine ⟨_, List.mem_map_of_mem _ hsq, ?_⟩
            simp only [h, if_neg hd]
            exact List.mem_append_left _ hx
          · intro x hx
            rw [deepResearch, mem_aggregate_urls]
            refine ⟨_, List.mem_map_of_mem _ hsq, ?_⟩
            simp only [h, if_neg hd]
            exact List.mem_append_left _ hx

/-- C4 (amended): the aggregate is a superset of the task's priorLearnings and
priorUrls *provided* some branch survives to a depth-exhausted leaf along
successful searches (`deepGood`); without that proviso the priors can be
dropped — a node with zero sub-queries or with every branch failing returns
`{learnings: [], visitedUrls: []}` (see the counterexample). -/
theorem c4_superset_when_good (env : Env) (q : String) (b d : Nat) (L U : List String)
    (hgood : deepGood env q b d L U = true) :
    (∀ x ∈ L, x ∈ (deepResearch env q b d L U).learnings)
    ∧ (∀ x ∈ U, x ∈ (deepResearch env q b d L U).visitedUrls) :=
  deepGood_superset d env q b L U hgood

/-- Witness for C4: a depth-2 run under the healthy environment keeps the
ancestor-supplied learning and URL. -/
theorem c4_witness :
    deepGood envW "root" 2 2 ["L0"] ["u0"] = true
    ∧ (∀ x ∈ (["L0"] : List String), x ∈ (deepResearch envW "root" 2 2 ["L0"] ["u0"]).learnings)
    ∧ (∀ x ∈ (["u0"] : List String), x ∈ (deepResearch envW "root" 2 2 ["L0"] ["u0"]).visitedUrls) :=
  ⟨by decide,
   (c4_superset_when_good envW "root" 2 2 ["L0"] ["u0"] (by decide)).1,
   (c4_superset_when_good envW "root" 2 2 ["L0"] ["u0"] (by decide)).2⟩

/- ===== C6 ===== -/

/-- C6 (counterexample to the claim as stated): under `envZeroDocs` the primary
search returns zero documents and the repository's DuckDuckGo search would
return a document, yet the branch performs no fallback invocation at all —
extraction runs directly on the empty document list. -/
theorem c6_counterexample :
    envZeroDocs.searchRes "q1" = some []
    ∧ envZeroDocs.ddgSearch "q1" 15000 5 = some [⟨some "du", some "dm"⟩]
    ∧ branchEvents envZeroDocs ⟨"q1", "g1"⟩ =
        [.primarySearch "q1" 15000 5, .extractionCall "q1" 0]
    ∧ (branchEvents envZeroDocs ⟨"q1", "g1"⟩).filter isFallbackEvent = [] := by
  decide

/-- C6 (amended): for every environment and sub-query, the branch invokes the
primary search exactly once with the literal options
`{timeout: 15000, limit: 5}` and never invokes any fallback search capability;
whenever the primary search returns a document list — including the empty one —
learning extraction runs on exactly that list. -/
theorem c6_no_fallback (env : Env) (sq : SubQuery) :
    (branchEvents env sq).filter isFallbackEvent = []
    ∧ (branchEvents env sq).filter isPrimaryEvent = [.primarySearch sq.query 15000 5]
    ∧ (∀ docs, env.searchRes sq.query = some docs →
        branchEvents env sq =
          [.primarySearch sq.query 15000 5, .extractionCall sq.query docs.length]) := by
  refine ⟨?_, ?_, fun docs h => ?_⟩
  · rw [branchEvents]
    cases h : env.searchRes sq.query <;> simp [isFallbackEvent, isPrimaryEvent]
  · rw [branchEvents]
    cases h : env.searchRes sq.query <;> simp [isFallbackEvent, isPrimaryEvent]
  · rw [branchEvents, h]

/-- Witness for C6: the amended statement evaluated on the zero-document
environment. -/
theorem c6_witness :
    envZeroDocs.searchRes "q1" = some []
    ∧ branchEvents envZeroDocs ⟨"q1", "g1"⟩ =
        [.primarySearch "q1" 15000 5, .extractionCall "q1" 0] :=
  ⟨rfl, (c6_no_fallback envZeroDocs ⟨"q1", "g1"⟩).2.2 [] rfl⟩

/- ===== C8 ===== -/

/-- C8 (counterexample to the claim as stated): the response consisting of two
numbered query lines is accepted as two SubQueries, both with an empty
`researchGoal` — a pending query is flushed with its initialiser `''` when the
next numbered line (or the end of input) arrives. -/
theorem c8_counterexample :
    generateSerpQueriesM (some "1. foo\n2. bar") 3 = [⟨"foo", ""⟩, ⟨"bar", ""⟩]
    ∧ ∃ sq ∈ generateSerpQueriesM (some "1. foo\n2. bar") 3,
        sq.query = "foo" ∧ sq.researchGoal = "" := by
  decide

/-- If every line matches the numbered-query pattern and the pending query (if
any) has an empty goal, every parsed SubQuery has an empty goal. -/
lemma parseLoop_goals_empty :
    ∀ (lines : List (List Char)) (cur : Option SubQuery),
      (∀ l ∈ lines, (matchQueryLine l).isSome) →
      (∀ c, cur = some c → c.researchGoal = "") →
      ∀ qs, parseLoop cur lines = some qs → ∀ sq ∈ qs, sq.researchGoal = "" := by
  intro lines
  induction lines with
  | nil =>
    intro cur _ hc qs hqs sq hsq
    simp only [parseLoop] at hqs
    cases cur with
    | none =>
      simp only [Option.some.injEq] at hqs
      subst hqs
      simp at hsq
    | some c =>
      simp only [Option.some.injEq] at hqs
      subst hqs
      rw [List.mem_singleton] at hsq
      subst hsq
      exact hc sq rfl
  | cons line rest ih =>
    intro cur hl hc qs hqs sq hsq
    have hline := hl line (List.mem_cons_self _ _)
    simp only [parseLoop] at hqs
    cases hm : matchQueryLine line with
    | none => rw [hm] at hline; simp at hline
    | some g =>
      rw [hm] at hqs
      obtain ⟨qs2, hqs2, hcat⟩ := Option.map_eq_some'.1 hqs
      subst hcat
      rcases List.mem_append.1 hsq with hf | hq
      · cases cur with
        | none => simp at hf
        | some c =>
          rw [List.mem_singleton] at hf
          subst hf
          exact hc sq rfl
      · exact ih (some ⟨String.mk (trimChars g), ""⟩)
          (fun l hl2 => hl l (List.mem_cons_of_mem _ hl2))
          (by intro c hc2; cases hc2; rfl) qs2 hqs2 sq hq

/-- C8 (amended): `researchGoal` is not guaranteed non-empty.  A query line
never followed by a goal line is accepted with `researchGoal = ''`; in
particular, for every generateText response whose non-blank lines all match the
numbered-query pattern, every accepted SubQuery has an empty `researchGoal`. -/
theorem c8_goal_not_guaranteed (text : String) (n : Nat)
    (hall : ∀ l ∈ linesOf text, (matchQueryLine l).isSome) :
    ∀ sq ∈ generateSerpQueriesM (some text) n, sq.researchGoal = "" := by
  intro sq hsq
  rw [generateSerpQueriesM] at hsq
  cases hp : parseSerpText text with
  | none => rw [hp] at hsq; simp at hsq
  | some qs =>
    rw [hp] at hsq
    have hp2 : parseLoop none (linesOf text) = some qs := hp
    exact parseLoop_goals_empty (linesOf text) none hall (by simp) qs hp2 sq
      (List.mem_of_mem_take hsq)

/-- Witness for C8: the amended statement evaluated on a two-query response. -/
theorem c8_witness :
    (∀ l ∈ linesOf "1. a\n2. b", (matchQueryLine l).isSome)
    ∧ ∀ sq ∈ generateSerpQueriesM (some "1. a\n2. b") 3, sq.researchGoal = "" :=
  ⟨by decide, c8_goal_not_guaranteed "1. a\n2. b" 3 (by decide)⟩


/- ===== C9 ===== -/

/-- C9 (counterexample to the claim as stated): in the breadth-4 depth-2 call
tree under `envFour`, a reachable scheduler state has four leaf branch tasks
running simultaneously — more than `ConcurrencyLimit = 2` branch tasks are
concurrently running across the call tree, because each recursive invocation
creates its own fresh `pLimit(ConcurrencyLimit)` pool instead of sharing the
parent's semaphore. -/
theorem c9_counterexample :
    SchedReachable cTree sBad
    ∧ runningLeafCount cTree sBad = 4
    ∧ ConcurrencyLimit < runningLeafCount cTree sBad := by
  refine ⟨?_, by decide, by decide⟩
  have h1 : SchedStep cTree ⟨[], []⟩ ⟨[[0]], []⟩ :=
    SchedStep.start [0] (by decide) (by decide) (by decide) (by decide) (by decide)
  have h2 : SchedStep cTree ⟨[[0]], []⟩ ⟨[[1], [0]], []⟩ :=
    SchedStep.start [1] (by decide) (by decide) (by decide) (by decide) (by decide)
  have h3 : SchedStep cTree ⟨[[1], [0]], []⟩ ⟨[[0, 0], [1], [0]], []⟩ :=
    SchedStep.start [0, 0] (by decide) (by decide) (by decide) (by decide) (by decide)
  have h4 : SchedStep cTree ⟨[[0, 0], [1], [0]], []⟩ ⟨[[0, 1], [0, 0], [1], [0]], []⟩ :=
    SchedStep.start [0, 1] (by decide) (by decide) (by decide) (by decide) (by decide)
  have h5 : SchedStep cTree ⟨[[0, 1], [0, 0], [1], [0]], []⟩
      ⟨[[1, 0], [0, 1], [0, 0], [1], [0]], []⟩ :=
    SchedStep.start [1, 0] (by decide) (by decide) (by decide) (by decide) (by decide)
  have h6 : SchedStep cTree ⟨[[1, 0], [0, 1], [0, 0], [1], [0]], []⟩
      ⟨[[1, 1], [1, 0], [0, 1], [0, 0], [1], [0]], []⟩ :=
    SchedStep.start [1, 1] (by decide) (by decide) (by decide) (by decide) (by decide)
  exact ((((((Relation.ReflTransGen.refl).tail h1).tail h2).tail h3).tail h4).tail h5).tail h6

/-- C9 (amended): the concurrency bound that does hold is per invocation, not
per call tree — at every reachable instant, each invocation's own
`pLimit(ConcurrencyLimit)` pool admits at most `ConcurrencyLimit` of that
invocation's branch tasks; recursive calls submit their children to a fresh
pool, so the tree-wide number of concurrently running tasks is not bounded by
`ConcurrencyLimit` (see the counterexample). -/
theorem c9_per_node_bound (tree : RTree) (s : SchedState) (h : SchedReachable tree s) :
    ∀ n : List Nat, nodeTasksRunning s n ≤ ConcurrencyLimit := by
  induction h with
  | refl => intro n; simp [nodeTasksRunning]
  | @tail b c _ step ih =>
    intro n
    cases step with
    | start p hex hnr hnd hpar hcnt =>
      simp only [nodeTasksRunning, List.filter_cons]
      by_cases hn : p.dropLast = n
      · subst hn
        simp only [beq_self_eq_true, if_true, List.length_cons]
        have hc2 := hcnt
        simp only [nodeTasksRunning] at hc2
        omega
      · have hb : (p.dropLast == n) = false := beq_eq_false_iff_ne.2 hn
        simp only [hb, Bool.false_eq_true, if_false]
        exact ih n
    | finish p hmem hdone =>
      have hsub : List.Sublist ((b.running.erase p).filter (fun q => q.dropLast == n))
          (b.running.filter (fun q => q.dropLast == n)) :=
        List.Sublist.filter _ (List.erase_sublist p b.running)
      exact le_trans hsub.length_le (ih n)

/-- Witness for C9: the per-node bound evaluated at a reachable two-task state
of the concrete call tree. -/
theorem c9_witness :
    SchedReachable cTree ⟨[[1], [0]], []⟩
    ∧ ∀ n : List Nat, nodeTasksRunning ⟨[[1], [0]], []⟩ n ≤ ConcurrencyLimit := by
  have h1 : SchedStep cTree ⟨[], []⟩ ⟨[[0]], []⟩ :=
    SchedStep.start [0] (by decide) (by decide) (by decide) (by decide) (by decide)
  have h2 : SchedStep cTree ⟨[[0]], []⟩ ⟨[[1], [0]], []⟩ :=
    SchedStep.start [1] (by decide) (by decide) (by decide) (by decide) (by decide)
  have hr : SchedReachable cTree ⟨[[1], [0]], []⟩ := (Relation.ReflTransGen.single h1).tail h2
  exact ⟨hr, c9_per_node_bound cTree ⟨[[1], [0]], []⟩ hr⟩

/- ===== C7 ===== -/

/-- C7 (counterexample to the claim as stated): with a token budget of 1 and a
200-character prompt (token counter: one token per character, realisable in the
o200k_base encoding), the estimated character budget is negative, so the
minimum-chunk hard cut returns the first `MinChunkSize = 140` characters
*without re-checking the token bound*: the result encodes to 140 tokens,
exceeding the budget. -/
theorem c7_counterexample :
    ¬ List.length (trimPrompt List.length 1 (List.replicate 200 'a')) ≤ 1 := by
  rw [trimPrompt]
  norm_num [List.length_replicate, MinChunkSize, List.length_take]

/-- C7 (amended): `trimPrompt` guarantees `enc(result) ≤ contextSize` provided
the budget `contextSize` is at least the token count of every string of at most
`MinChunkSize` (140) characters — in particular for the call sites' budgets of
25,000 and 150,000 tokens.  Without that proviso the minimum-chunk hard cut can
exceed the budget (see the counterexample); the convergence hard cut (taken when
the splitter fails to shrink the text) recurses and therefore does satisfy the
bound. -/
theorem c7_trim_bound (enc : List Char → Nat) (ctx : Nat)
    (henc : ∀ s : List Char, s.length ≤ MinChunkSize → enc s ≤ ctx) :
    ∀ p : List Char, enc (trimPrompt enc ctx p) ≤ ctx := by
  have main : ∀ (n : Nat) (p : List Char), p.length ≤ n → enc (trimPrompt enc ctx p) ≤ ctx := by
    intro n
    induction n with
    | zero =>
      intro p hp
      have hp0 : p = [] := List.length_eq_zero.1 (Nat.le_zero.1 hp)
      subst hp0
      rw [trimPrompt]
      exact henc [] (by simp [MinChunkSize])
    | succ n ihn =>
      intro p hp
      rw [trimPrompt]
      split
      · exact henc [] (by simp [MinChunkSize])
      · split
        · rename_i h1 h2
          exact h2
        · split
          · rename_i h1 h2 h3
            apply henc
            simp only [List.length_take]
            omega
          · split
            · rename_i h1 h2 h3 h4
              apply ihn
              have hpos : 0 < p.length := List.length_pos.2 h1
              simp only [List.length_take]
              omega
            · rename_i h1 h2 h3 h4
              apply ihn
              simp only [splitTextFirst, List.length_take] at h4 ⊢
              omega
  exact fun p => main p.length p le_rfl

/-- Witness for C7: the amended bound evaluated with the per-character token
counter at budget 140 on a 300-character prompt. -/
theorem c7_witness :
    (∀ s : List Char, s.length ≤ MinChunkSize → List.length s ≤ 140)
    ∧ List.length (trimPrompt List.length 140 (List.replicate 300 'a')) ≤ 140 :=
  ⟨fun s h => h, c7_trim_bound List.length 140 (fun s h => h) (List.replicate 300 'a')⟩

/- ===== C10 ===== -/

/-- C10: `trimPrompt` is the identity below the budget — when the encoded
length of the prompt is within `contextSize` it returns the prompt unchanged,
hence it is idempotent at that budget; the empty prompt always yields the empty
result (the JS falsy check on `''`). -/
theorem c10_identity_below_budget (enc : List Char → Nat) (ctx : Nat) (p : List Char)
    (h : enc p ≤ ctx) :
    trimPrompt enc ctx p = p
    ∧ trimPrompt enc ctx (trimPrompt enc ctx p) = trimPrompt enc ctx p
    ∧ trimPrompt enc ctx [] = [] := by
  have hempty : trimPrompt enc ctx [] = [] := by
    rw [trimPrompt]
    simp
  have hid : trimPrompt enc ctx p = p := by
    rw [trimPrompt]
    split
    · rename_i h1
      exact h1.symm
    · rfl
  refine ⟨hid, ?_, hempty⟩
  rw [hid]
  exact hid

/-- Witness for C10: a 5-character prompt under a 10-token budget is returned
unchanged. -/
theorem c10_witness :
    List.length (List.replicate 5 'a') ≤ 10
    ∧ trimPrompt List.length 10 (List.replicate 5 'a') = List.replicate 5 'a' :=
  ⟨by decide,
   (c10_identity_below_budget List.length 10 (List.replicate 5 'a') (by decide)).1⟩

end DeepResearch
